/-
Verification of the dotfiles-manager repository: a shallow embedding of the
package-manager adapters (Homebrew, Pacman, Winget) and of the configuration
templating helpers (EvalStr, modify), together with theorems settling the
frozen claims C1..C10.

Subprocess interaction is modelled by explicit environments: an adapter sees
the exit codes / outputs of the presence checks it runs before and after an
install attempt, the (ignored) exit status of the install command itself, and
a flag saying whether the configured executable exists.  The external
semantic-version library is modelled as a pair of black-box partial parsing
functions (strict `Version(...)` and lenient `Version.coerce`), as the spec
treats it as a black box.
-/
import Mathlib

set_option maxRecDepth 4000
set_option linter.unusedVariables false

/-! ### Python string primitives (structural, kernel-evaluable) -/

/-- `startsWithL hay pat`: the char list `hay` starts with `pat`
(Python `str.startswith`, over the underlying char lists). -/
def startsWithL : List Char → List Char → Bool
  | _, [] => true
  | [], _ :: _ => false
  | c :: cs, p :: ps => c == p && startsWithL cs ps

/-- `containsL hay pat`: `pat` occurs as a contiguous substring of `hay`. -/
def containsL : List Char → List Char → Bool
  | [], pat => pat.isEmpty
  | c :: cs, pat => startsWithL (c :: cs) pat || containsL cs pat

/-- Python's `pat in hay` on strings. -/
def pythonIn (pat hay : String) : Bool := containsL hay.data pat.data

/-- Python's `s.startswith(pre)`. -/
def pyStartsWith (s pre : String) : Bool := startsWithL s.data pre.data

/-- Default whitespace stripped by Python `str.strip` (ASCII part). -/
def pyWhitespace (c : Char) : Bool :=
  c == ' ' || c == '\t' || c == '\n' || c == '\r' || c == '\x0b' || c == '\x0c'

/-- Python's `s.strip()` (restricted to ASCII whitespace). -/
def pyStrip (s : String) : String :=
  ⟨((s.data.dropWhile pyWhitespace).reverse.dropWhile pyWhitespace).reverse⟩

/-- Helper for `pySplitlines`: accumulate chars of the current line (reversed). -/
def splitLinesAux : List Char → List Char → List String
  | [], acc => if acc.isEmpty then [] else [⟨acc.reverse⟩]
  | c :: rest, acc =>
    if c == '\n' then ⟨acc.reverse⟩ :: splitLinesAux rest []
    else splitLinesAux rest (c :: acc)

/-- Python's `s.splitlines()` (newline-only model: the adapters read
`subprocess.run(text=True)` output, whose lines are `\n`-separated). -/
def pySplitlines (s : String) : List String := splitLinesAux s.data []

/-- Helper for `pySplitDot`. -/
def pySplitDotAux : List Char → List Char → List String
  | [], acc => [⟨acc.reverse⟩]
  | c :: rest, acc =>
    if c == '.' then ⟨acc.reverse⟩ :: pySplitDotAux rest []
    else pySplitDotAux rest (c :: acc)

/-- Python's `path.split('.')`. -/
def pySplitDot (s : String) : List String := pySplitDotAux s.data []

/-- The chars after the first `':'`, or `none` when there is no colon. -/
def afterFirstColonL : List Char → Option (List Char)
  | [] => none
  | c :: rest => if c == ':' then some rest else afterFirstColonL rest

/-- Python's `line.split(":", 1)[1]`: `none` models the `IndexError` raised
when the line has no colon at all. -/
def pySplitColon1 (s : String) : Option String :=
  (afterFirstColonL s.data).map fun cs => ⟨cs⟩

/-! ### Error and value taxonomy (interface.py) -/

/-- `PackageSpec(id, version)` from interface.py.  The optional
`semantic_version.Spec` constraint is kept as its raw expression text
(the library is a black box and the adapters never inspect it). -/
structure PackageSpec where
  id : String
  version : Option String := none
deriving DecidableEq

/-- An element of the union type `PackageSpec | str` accepted by `install`. -/
inductive SpecItem where
  | rawStr (s : String)
  | spec (p : PackageSpec)
deriving DecidableEq

/-- The package identifier used for the subprocess calls
(`s.id if isinstance(s, PackageSpec) else s`). -/
def SpecItem.pkgId : SpecItem → String
  | .rawStr s => s
  | .spec p => p.id

/-- The coercion applied to list elements
(`s if isinstance(s, PackageSpec) else PackageSpec(s)`). -/
def SpecItem.coerceSpec : SpecItem → SpecItem
  | .rawStr s => .spec ⟨s, none⟩
  | .spec p => .spec p

/-- The shape of `install`'s argument: a single `str`/`PackageSpec`, or a
list of them.  (The `else: raise ValueError` branch of the sources is
unreachable over this type.) -/
inductive InstallInput where
  | one (i : SpecItem)
  | many (l : List SpecItem)
deriving DecidableEq

/-- The `specs` list built by the normalization prologue of every `install`. -/
def normSpecs : InstallInput → List SpecItem
  | .one i => [i]
  | .many l => l.map SpecItem.coerceSpec

/-- The `pkgids` list built by the normalization prologue of every `install`. -/
def normIds : InstallInput → List String
  | .one i => [i.pkgId]
  | .many l => l.map SpecItem.pkgId

/-- Exceptions that can escape an adapter operation.  The first four are the
taxonomy of interface.py; the last four are Python builtin exceptions that
the sources let propagate. -/
inductive PmError where
  | notFound (package manager : String)
  | managerNotFound (manager : String)
  | installFailed (spec : SpecItem) (manager : String)
  | bunchFailed (specs : List SpecItem) (manager : String)
  | fileNotFound (command : String)
  | calledProcessError
  | pyValueError
  | pyIndexError
deriving DecidableEq

/-- Result of a `versions` call: a list of parsed versions, or an escaping
exception. -/
inductive VersionsOutcome (V : Type) where
  | ok (versions : List V)
  | error (e : PmError)
deriving DecidableEq

/-- Result of an `install` call: void success (`return None`), or an escaping
exception. -/
inductive InstallOutcome where
  | ok
  | error (e : PmError)
deriving DecidableEq

/-- The specs an install outcome reports as failed (empty for success). -/
def InstallOutcome.failedSpecs : InstallOutcome → List SpecItem
  | .error (.installFailed s _) => [s]
  | .error (.bunchFailed fs _) => fs
  | _ => []

/-- Black-box model of the `semantic_version` library: `parse` is the strict
`Version(s)` constructor, `coerce` is the lenient `Version.coerce(s)`;
`none` models a raised `ValueError`. -/
structure SemverLib (V : Type) where
  parse : String → Option V
  coerce : String → Option V

/-- Environment observed by one `versions` call: whether the executable
exists, the query subprocess's exit status and captured output, and (for
Homebrew only) the `formulae[].versions.stable` fields that the black-box
`json.loads` extracts from its stdout (`none` for a missing/None field). -/
structure QueryEnv where
  exeExists : Bool
  exitCode : Int
  stdout : String
  stderr : String
  formulaeStable : List (Option String) := []

/-- Environment observed by one `install` call: whether the executable
exists, and per-package exit codes / stdout of the presence checks run
before (`preCode`/`preOut`) and after (`postCode`/`postOut`) the install
attempt.  `installCode` / `wingetInstallCode` are the exit statuses of the
install command(s) themselves, which the sources capture and ignore. -/
structure SysEnv where
  exeExists : Bool
  preCode : String → Int
  preOut : String → String
  postCode : String → Int
  postOut : String → String
  installCode : Int
  wingetInstallCode : String → Int

/-! ### Homebrew adapter (homebrew.py) -/

/-- The not-found signature checked by `HomebrewManager.versions`. -/
def hbNotFoundSig (package : String) : String :=
  "Error: No available formula with the name \"" ++ package ++ "\""

/-- `HomebrewManager.versions`: run `brew info --json=v2 <package>`; on
success parse every truthy `formulae[].versions.stable` with the strict
parser, silently skipping `ValueError`s; `FileNotFoundError` becomes
`PackageManagerNotFound`; a non-zero exit whose stderr+stdout contains the
not-found signature yields `[]`, any other non-zero exit propagates. -/
def HomebrewManager.versions {V : Type} (lib : SemverLib V) (command : String)
    (env : QueryEnv) (package : String) : VersionsOutcome V :=
  if !env.exeExists then .error (.managerNotFound command)
  else if env.exitCode == 0 then
    .ok (env.formulaeStable.filterMap fun o =>
      match o with
      | none => none
      | some v => if v == "" then none else lib.parse v)
  else
    if pythonIn (hbNotFoundSig package) (env.stderr ++ env.stdout) then .ok []
    else .error .calledProcessError

/-- Presence predicate of Homebrew's check `brew list <id>` (zero exit). -/
def hbPresent (code : String → Int) (pkgid : String) : Bool := code pkgid == 0

/-- `HomebrewManager.install`: normalize, run `brew list <id>` per id, batch
`brew install` over the absent ones (exit status ignored), re-check each with
`brew list`, then raise per the input shape.  The pair's second component is
the trace of subprocess argv lists issued.  A missing executable makes the
first subprocess call raise an (uncaught) `FileNotFoundError`. -/
def HomebrewManager.install (command : String) (env : SysEnv)
    (inp : InstallInput) : InstallOutcome × List (List String) :=
  let pairs := (normSpecs inp).zip (normIds inp)
  match pairs with
  | [] => (.ok, [])
  | (_, pid0) :: _ =>
    if env.exeExists then
      let preTrace := pairs.map fun sp => [command, "list", sp.2]
      let toInstall := pairs.filter fun sp => !hbPresent env.preCode sp.2
      let failed := (toInstall.filter fun sp => !hbPresent env.postCode sp.2).map Prod.fst
      let tailTrace :=
        match toInstall with
        | [] => []
        | _ :: _ =>
          ([command, "install"] ++ toInstall.map Prod.snd)
            :: toInstall.map fun sp => [command, "list", sp.2]
      match failed, inp with
      | [], _ => (.ok, preTrace ++ tailTrace)
      | f :: _, .one _ => (.error (.installFailed f command), preTrace ++ tailTrace)
      | f :: fs, .many _ => (.error (.bunchFailed (f :: fs) command), preTrace ++ tailTrace)
    else
      (.error (.fileNotFound command), [[command, "list", pid0]])

/-! ### Pacman adapter (pacman.py) -/

/-- The per-line scan of `PackageManagerHelper.run_versions`: lines starting
with `Version` contribute `line.split(":", 1)[1].strip()` parsed strictly
(parse failures skipped); a matching line without a colon raises
`IndexError`, modelled as `none`. -/
def pacmanCollect {V : Type} (lib : SemverLib V) : List String → Option (List V)
  | [] => some []
  | l :: ls =>
    if pyStartsWith l "Version" then
      match pySplitColon1 l with
      | none => none
      | some rest =>
        match lib.parse (pyStrip rest) with
        | none => pacmanCollect lib ls
        | some v => (pacmanCollect lib ls).map fun vs => v :: vs
    else pacmanCollect lib ls

/-- `PackageManagerHelper.run_versions`: run `<command> -Si <package>`; on
success scan stdout lines; `FileNotFoundError` becomes
`PackageManagerNotFound`; a non-zero exit whose stderr+stdout contains both
`error: package '` and `was not found` yields `[]`, any other non-zero exit
propagates. -/
def PackageManagerHelper.run_versions {V : Type} (lib : SemverLib V)
    (command : String) (env : QueryEnv) (package : String) : VersionsOutcome V :=
  if !env.exeExists then .error (.managerNotFound command)
  else if env.exitCode == 0 then
    match pacmanCollect lib (pySplitlines env.stdout) with
    | none => .error .pyIndexError
    | some vs => .ok vs
  else
    if pythonIn "error: package '" (env.stderr ++ env.stdout)
        && pythonIn "was not found" (env.stderr ++ env.stdout) then .ok []
    else .error .calledProcessError

/-- `PackageManagerHelper.install`: same structure as Homebrew's install with
`<command> -Q <id>` presence checks and one batched
`<command> -S --noconfirm <id...>`. -/
def PackageManagerHelper.install (command : String) (env : SysEnv)
    (inp : InstallInput) : InstallOutcome × List (List String) :=
  let pairs := (normSpecs inp).zip (normIds inp)
  match pairs with
  | [] => (.ok, [])
  | (_, pid0) :: _ =>
    if env.exeExists then
      let preTrace := pairs.map fun sp => [command, "-Q", sp.2]
      let toInstall := pairs.filter fun sp => !hbPresent env.preCode sp.2
      let failed := (toInstall.filter fun sp => !hbPresent env.postCode sp.2).map Prod.fst
      let tailTrace :=
        match toInstall with
        | [] => []
        | _ :: _ =>
          ([command, "-S", "--noconfirm"] ++ toInstall.map Prod.snd)
            :: toInstall.map fun sp => [command, "-Q", sp.2]
      match failed, inp with
      | [], _ => (.ok, preTrace ++ tailTrace)
      | f :: _, .one _ => (.error (.installFailed f command), preTrace ++ tailTrace)
      | f :: fs, .many _ => (.error (.bunchFailed (f :: fs) command), preTrace ++ tailTrace)
    else
      (.error (.fileNotFound command), [[command, "-Q", pid0]])

/-- `PacmanManager.versions`: delegate to the helper, then convert an empty
result into `PackageNotFound(package, self.id)` — the manager name in the
error is the class attribute `"pacman"`, not the configured command. -/
def PacmanManager.versions {V : Type} (lib : SemverLib V) (command : String)
    (env : QueryEnv) (package : String) : VersionsOutcome V :=
  match PackageManagerHelper.run_versions lib command env package with
  | .ok [] => .error (.notFound package "pacman")
  | r => r

/-- `PacmanManager.install` delegates to the helper. -/
def PacmanManager.install (command : String) (env : SysEnv)
    (inp : InstallInput) : InstallOutcome × List (List String) :=
  PackageManagerHelper.install command env inp

/-! ### Winget adapter (winget.py) -/

/-- A line that bumps the winget header counter: its stripped form starts
with `Version` or with `-------`. -/
def headerLine (l : String) : Bool :=
  pyStartsWith (pyStrip l) "Version" || pyStartsWith (pyStrip l) "-------"

/-- The capture loop of `WingetManager.versions`: every line whose stripped
form starts with `Version` or `-------` increments `capture` and is skipped;
other lines are coerced leniently exactly while `capture == 2`; a coercion
failure raises `ValueError`, modelled as `none`. -/
def wingetCollect {V : Type} (lib : SemverLib V) : Nat → List String → Option (List V)
  | _, [] => some []
  | cap, l :: ls =>
    if headerLine l then wingetCollect lib (cap + 1) ls
    else if cap == 2 then
      match lib.coerce (pyStrip l) with
      | none => none
      | some v => (wingetCollect lib cap ls).map fun vs => v :: vs
    else wingetCollect lib cap ls

/-- `WingetManager.versions`: run `<command> show --id <package> --versions`;
on success run the capture loop over stdout lines; `FileNotFoundError`
becomes `PackageManagerNotFound`; a non-zero exit whose stderr+stdout
contains either not-found signature raises `PackageNotFound(package,
self.command)` directly; any other non-zero exit propagates. -/
def WingetManager.versions {V : Type} (lib : SemverLib V) (command : String)
    (env : QueryEnv) (package : String) : VersionsOutcome V :=
  if !env.exeExists then .error (.managerNotFound command)
  else if env.exitCode == 0 then
    match wingetCollect lib 0 (pySplitlines env.stdout) with
    | none => .error .pyValueError
    | some vs => .ok vs
  else
    if pythonIn "No package found matching input criteria" (env.stderr ++ env.stdout)
        || pythonIn "No installed package found" (env.stderr ++ env.stdout) then
      .error (.notFound package command)
    else .error .calledProcessError

/-- Presence predicate of Winget's check `<command> list --id <id>`: zero
exit AND the id literally appearing in the check's stdout. -/
def wgPresent (code : String → Int) (out : String → String) (pkgid : String) : Bool :=
  code pkgid == 0 && pythonIn pkgid (out pkgid)

/-- `WingetManager.install`: same normalization; presence via
`<command> list --id <id>` requiring the id in the output; installs issued
one id at a time (each exit status ignored), each followed by a re-check;
same shape-determined error policy. -/
def WingetManager.install (command : String) (env : SysEnv)
    (inp : InstallInput) : InstallOutcome × List (List String) :=
  let pairs := (normSpecs inp).zip (normIds inp)
  match pairs with
  | [] => (.ok, [])
  | (_, pid0) :: _ =>
    if env.exeExists then
      let preTrace := pairs.map fun sp => [command, "list", "--id", sp.2]
      let toInstall := pairs.filter fun sp => !wgPresent env.preCode env.preOut sp.2
      let failed := (toInstall.filter fun sp => !wgPresent env.postCode env.postOut sp.2).map Prod.fst
      let tailTrace := toInstall.flatMap fun sp =>
        [[command, "install", "--id", sp.2, "--accept-source-agreements",
          "--accept-package-agreements", "--silent"],
         [command, "list", "--id", sp.2]]
      match failed, inp with
      | [], _ => (.ok, preTrace ++ tailTrace)
      | f :: _, .one _ => (.error (.installFailed f command), preTrace ++ tailTrace)
      | f :: fs, .many _ => (.error (.bunchFailed (f :: fs) command), preTrace ++ tailTrace)
    else
      (.error (.fileNotFound command), [[command, "list", "--id", pid0]])

/-- The set of specs left absent by an install attempt, characterized from
the input and the two presence predicates: the normalized (spec, id) pairs
whose presence check fails both before and after the attempt. -/
def failedSet (pre post : String → Bool) (inp : InstallInput) : List SpecItem :=
  (((normSpecs inp).zip (normIds inp)).filter fun sp =>
    !pre sp.2 && !post sp.2).map Prod.fst

/-! ### Templating engine (dotfiles_manager/__init__.py) -/

/-- `EvalStr`: raw template text (`_node.value`) plus the render cache
(`_cached_str`).  The ancestor-path bookkeeping is not needed by any claim. -/
structure EvalStr where
  template : String
  cachedStr : Option String := none
deriving DecidableEq

/-- `EvalStr.try_evaluate` for string values: render against the currently
registered environment, modelled as an opaque `String → String` (the
`isinstance(value, str)` and `cls.jinja is not None` guards hold on this
path). -/
def EvalStr.try_evaluate (render : String → String) (t : String) : String :=
  render t

/-- `EvalStr.__str__`: render and cache on first access, return the cache
afterwards.  Returns the value and the updated instance state. -/
def EvalStr.str (render : String → String) (e : EvalStr) : String × EvalStr :=
  match e.cachedStr with
  | some v => (v, e)
  | none =>
    let v := EvalStr.try_evaluate render e.template
    (v, { e with cachedStr := some v })

/-- `EvalStr.to_yaml`: the serialized scalar value is
`try_evaluate(instance.template)` against the current environment — the
`_cached_str` field is not consulted. -/
def EvalStr.to_yaml (render : String → String) (e : EvalStr) : String :=
  EvalStr.try_evaluate render e.template

/-- A loaded YAML document node: plain scalar, `!eval`-tagged scalar
(an `EvalStr` holding template text and cache), or a mapping. -/
inductive YNode where
  | scalar (s : String)
  | eval (template : String) (cached : Option String)
  | map (entries : List (String × YNode))

/-- First-match association lookup (keys of a `CommentedMap` are unique). -/
def lookupKey : List (String × YNode) → String → Option YNode
  | [], _ => none
  | kv :: rest, key => if kv.1 = key then some kv.2 else lookupKey rest key

/-- Python's `node.get(item)`: `none` models `AttributeError` (non-mapping
nodes have no `.get`); `some none` models a returned Python `None` (missing
key); `some (some v)` a found child. -/
def YNode.get : YNode → String → Option (Option YNode)
  | .map es, key => some (lookupKey es key)
  | _, _ => none

/-- The node reached from `n` by following a key path. -/
def nodeAt : YNode → List String → Option YNode
  | n, [] => some n
  | n, k :: ks =>
    match n with
    | .map es =>
      match lookupKey es k with
      | some v => nodeAt v ks
      | none => none
    | _ => none

/-- Functional update of the node at a key path (identity when the path
leaves the mapping spine). -/
def updateAt (f : YNode → YNode) : List String → YNode → YNode
  | [], n => f n
  | k :: ks, n =>
    match n with
    | .map es => .map (es.map fun kv => if kv.1 = k then (kv.1, updateAt f ks kv.2) else kv)
    | other => other

/-- The mutation `modify` applies to the resolved node: append
`" modified_value"` to an `EvalStr`'s raw template text, leave anything else
alone. -/
def appendModified : YNode → YNode
  | .eval t c => .eval (t ++ " modified_value") c
  | o => o

/-- One iteration of `modify`'s lookup loop.  The running value `cur` is:
`none` — the Python variable `node` is `None` (as initially, or after a
missing key), in which case THE SEGMENT IS LOOKED UP FROM THE DOCUMENT ROOT
again (`if node is None: node = value.get(item)`); `some (p, n)` — `node`
is the child `n`, reached from the root at key path `p`.  The result adds an
outer layer whose `none` means an `AttributeError` was raised. -/
def resolveStep (doc : YNode) (cur : Option (List String × YNode))
    (item : String) : Option (Option (List String × YNode)) :=
  match cur with
  | none =>
    match doc.get item with
    | none => none
    | some none => some none
    | some (some v) => some (some ([item], v))
  | some pn =>
    match pn.2.get item with
    | none => none
    | some none => some none
    | some (some v) => some (some (pn.1 ++ [item], v))

/-- The lookup loop of `modify`, iterating `resolveStep` over the path
segments; an outer `none` (raised `AttributeError`) aborts the loop. -/
def resolveGo (doc : YNode) : List String → Option (Option (List String × YNode)) →
    Option (Option (List String × YNode))
  | [], st => st
  | item :: rest, st =>
    match st with
    | none => none
    | some cur => resolveGo doc rest (resolveStep doc cur item)

/-- `modify(path, value)` (named `modifyDoc` here because `modify` is taken
by the Lean core library): run the lookup loop over `path.split('.')`; when
the final `node` is an `EvalStr`, append `" modified_value"` to its template
(in-place mutation modelled as a functional update at the resolved key
path); `none` models an escaping `AttributeError`. -/
def modifyDoc (path : String) (doc : YNode) : Option YNode :=
  match resolveGo doc (pySplitDot path) (some none) with
  | none => none
  | some none => some doc
  | some (some (p, n)) =>
    match n with
    | .eval _ _ => some (updateAt appendModified p doc)
    | _ => some doc

/-- The raw template text of the `EvalStr` at a key path, if any (observer
used to compare documents). -/
def templateAt (d : YNode) (p : List String) : Option String :=
  match nodeAt d p with
  | some (.eval t _) => some t
  | _ => none

/-- A toy instantiation of the black-box semver library over `String`:
strict parse accepts only `"1.2.3"`, lenient coercion accepts anything.
Used to evaluate witnesses and counterexamples on concrete inputs. -/
def toyLib : SemverLib String :=
  { parse := fun s => if s = "1.2.3" then some "1.2.3" else none,
    coerce := fun s => some s }

/-! ### Helper lemmas: install -/

theorem filter_and_filter {α : Type} (p q : α → Bool) (l : List α) :
    (l.filter p).filter q = l.filter fun a => p a && q a := by
  induction l with
  | nil => rfl
  | cons a l ih =>
    by_cases hp : p a <;> by_cases hq : q a <;>
      simp [List.filter_cons, hp, hq, ih]

theorem coerce_pkgId (i : SpecItem) : i.coerceSpec.pkgId = i.pkgId := by
  cases i <;> rfl

theorem normZip_one (i : SpecItem) :
    (normSpecs (.one i)).zip (normIds (.one i)) = [(i, i.pkgId)] := rfl

theorem normZip_many (l : List SpecItem) :
    (normSpecs (.many l)).zip (normIds (.many l))
      = l.map fun i => (i.coerceSpec, i.pkgId) := by
  simp [normSpecs, normIds, List.zip_map']

theorem mem_normZip_snd (inp : InstallInput) (sp : SpecItem × String)
    (h : sp ∈ (normSpecs inp).zip (normIds inp)) : sp.2 = sp.1.pkgId := by
  cases inp with
  | one i =>
    rw [normZip_one] at h
    simp only [List.mem_singleton] at h
    subst h; rfl
  | many l =>
    rw [normZip_many] at h
    simp only [List.mem_map] at h
    obtain ⟨a, -, rfl⟩ := h
    simp [coerce_pkgId]

/-- The raise policy shared by every adapter: nothing failed means void
success; a nonempty failed list raises `InstallFailed` of its head for a
single input and one `InstallBunchFailed` for a list input. -/
def shapeOutcome (c : String) (inp : InstallInput) (fs : List SpecItem) : InstallOutcome :=
  match fs, inp with
  | [], _ => .ok
  | f :: _, .one _ => .error (.installFailed f c)
  | f :: fs', .many _ => .error (.bunchFailed (f :: fs') c)

theorem hb_install_fst (c : String) (env : SysEnv) (inp : InstallInput)
    (h : env.exeExists = true) :
    (HomebrewManager.install c env inp).1 =
      shapeOutcome c inp
        (failedSet (hbPresent env.preCode) (hbPresent env.postCode) inp) := by
  cases inp with
  | one i =>
    by_cases h1 : hbPresent env.preCode i.pkgId <;>
      by_cases h2 : hbPresent env.postCode i.pkgId <;>
        simp [HomebrewManager.install, failedSet, normZip_one, h, h1, h2,
          List.filter_cons, shapeOutcome]
  | many l =>
    cases l with
    | nil => rfl
    | cons a as =>
      rw [HomebrewManager.install, failedSet, normZip_many, List.map_cons]
      simp only [h, if_true]
      rw [filter_and_filter]
      generalize List.map Prod.fst
        (List.filter (fun sp => !hbPresent env.preCode sp.2 && !hbPresent env.postCode sp.2)
          ((SpecItem.coerceSpec a, SpecItem.pkgId a)
            :: List.map (fun i => (SpecItem.coerceSpec i, SpecItem.pkgId i)) as)) = fs
      rcases fs with _ | ⟨f, fs⟩ <;> rfl

theorem pac_install_fst (c : String) (env : SysEnv) (inp : InstallInput)
    (h : env.exeExists = true) :
    (PackageManagerHelper.install c env inp).1 =
      shapeOutcome c inp
        (failedSet (hbPresent env.preCode) (hbPresent env.postCode) inp) := by
  cases inp with
  | one i =>
    by_cases h1 : hbPresent env.preCode i.pkgId <;>
      by_cases h2 : hbPresent env.postCode i.pkgId <;>
        simp [PackageManagerHelper.install, failedSet, normZip_one, h, h1, h2,
          List.filter_cons, shapeOutcome]
  | many l =>
    cases l with
    | nil => rfl
    | cons a as =>
      rw [PackageManagerHelper.install, failedSet, normZip_many, List.map_cons]
      simp only [h, if_true]
      rw [filter_and_filter]
      generalize List.map Prod.fst
        (List.filter (fun sp => !hbPresent env.preCode sp.2 && !hbPresent env.postCode sp.2)
          ((SpecItem.coerceSpec a, SpecItem.pkgId a)
            :: List.map (fun i => (SpecItem.coerceSpec i, SpecItem.pkgId i)) as)) = fs
      rcases fs with _ | ⟨f, fs⟩ <;> rfl

theorem wg_install_fst (c : String) (env : SysEnv) (inp : InstallInput)
    (h : env.exeExists = true) :
    (WingetManager.install c env inp).1 =
      shapeOutcome c inp
        (failedSet (wgPresent env.preCode env.preOut)
          (wgPresent env.postCode env.postOut) inp) := by
  cases inp with
  | one i =>
    by_cases h1 : wgPresent env.preCode env.preOut i.pkgId <;>
      by_cases h2 : wgPresent env.postCode env.postOut i.pkgId <;>
        simp [WingetManager.install, failedSet, normZip_one, h, h1, h2,
          List.filter_cons, shapeOutcome]
  | many l =>
    cases l with
    | nil => rfl
    | cons a as =>
      rw [WingetManager.install, failedSet, normZip_many, List.map_cons]
      simp only [h, if_true]
      rw [filter_and_filter]
      generalize List.map Prod.fst
        (List.filter
          (fun sp => !wgPresent env.preCode env.preOut sp.2
            && !wgPresent env.postCode env.postOut sp.2)
          ((SpecItem.coerceSpec a, SpecItem.pkgId a)
            :: List.map (fun i => (SpecItem.coerceSpec i, SpecItem.pkgId i)) as)) = fs
      rcases fs with _ | ⟨f, fs⟩ <;> rfl

theorem shape_failedSpecs (c : String) (inp : InstallInput) (pre post : String → Bool) :
    (shapeOutcome c inp (failedSet pre post inp)).failedSpecs
      = failedSet pre post inp := by
  cases inp with
  | one i =>
    by_cases h1 : pre i.pkgId <;> by_cases h2 : post i.pkgId <;>
      simp [shapeOutcome, failedSet, normZip_one, List.filter_cons, h1, h2,
        InstallOutcome.failedSpecs]
  | many l =>
    rcases hfs : failedSet pre post (.many l) with _ | ⟨f, fs⟩ <;> rfl

theorem failedSet_not_mem_of_pre (pre post : String → Bool) (inp : InstallInput)
    (s : SpecItem) (hpre : pre s.pkgId = true) : s ∉ failedSet pre post inp := by
  intro hmem
  unfold failedSet at hmem
  rw [List.mem_map] at hmem
  obtain ⟨sp, hsp, rfl⟩ := hmem
  rw [List.mem_filter] at hsp
  obtain ⟨hin, hcond⟩ := hsp
  rw [mem_normZip_snd inp sp hin] at hcond
  simp [hpre] at hcond

theorem failedSet_one_cases (pre post : String → Bool) (i : SpecItem) :
    failedSet pre post (.one i) = [] ∨ failedSet pre post (.one i) = [i] := by
  unfold failedSet
  rw [normZip_one]
  by_cases h1 : pre i.pkgId <;> by_cases h2 : post i.pkgId <;>
    simp [List.filter_cons, h1, h2]

theorem failedSet_many (pre post : String → Bool) (l : List SpecItem) :
    failedSet pre post (.many l)
      = (l.filter fun i => !pre i.pkgId && !post i.pkgId).map SpecItem.coerceSpec := by
  unfold failedSet
  rw [normZip_many, List.filter_map, List.map_map]
  rfl

theorem shape_many_ne (c : String) (l : List SpecItem) (fs : List SpecItem)
    (h : fs ≠ []) : shapeOutcome c (.many l) fs = .error (.bunchFailed fs c) := by
  rcases fs with _ | ⟨f, t⟩
  · exact absurd rfl h
  · rfl

theorem shape_eq_installFailed (c : String) (inp : InstallInput)
    (fs : List SpecItem) (s : SpecItem) (m : String)
    (h : shapeOutcome c inp fs = .error (.installFailed s m)) :
    ∃ i, inp = .one i := by
  cases inp with
  | one i => exact ⟨i, rfl⟩
  | many l => rcases fs with _ | ⟨f, t⟩ <;> simp [shapeOutcome] at h

theorem shape_eq_bunchFailed (c : String) (inp : InstallInput)
    (fs fs' : List SpecItem) (m : String)
    (h : shapeOutcome c inp fs = .error (.bunchFailed fs' m)) :
    ∃ l, inp = .many l := by
  cases inp with
  | many l => exact ⟨l, rfl⟩
  | one i => rcases fs with _ | ⟨f, t⟩ <;> simp [shapeOutcome] at h

theorem normZip_ne_nil (inp : InstallInput) (h : inp ≠ .many []) :
    (normSpecs inp).zip (normIds inp) ≠ [] := by
  cases inp with
  | one i => simp [normZip_one]
  | many l =>
    cases l with
    | nil => exact absurd rfl h
    | cons a as => rw [normZip_many]; simp

theorem hb_install_noexe (c : String) (env : SysEnv) (inp : InstallInput)
    (hexe : env.exeExists = false) (h : inp ≠ .many []) :
    (HomebrewManager.install c env inp).1 = .error (.fileNotFound c) := by
  rcases hp : (normSpecs inp).zip (normIds inp) with _ | ⟨⟨s0, p0⟩, rest⟩
  · exact absurd hp (normZip_ne_nil inp h)
  · simp [HomebrewManager.install, hp, hexe]

theorem pac_install_noexe (c : String) (env : SysEnv) (inp : InstallInput)
    (hexe : env.exeExists = false) (h : inp ≠ .many []) :
    (PackageManagerHelper.install c env inp).1 = .error (.fileNotFound c) := by
  rcases hp : (normSpecs inp).zip (normIds inp) with _ | ⟨⟨s0, p0⟩, rest⟩
  · exact absurd hp (normZip_ne_nil inp h)
  · simp [PackageManagerHelper.install, hp, hexe]

theorem wg_install_noexe (c : String) (env : SysEnv) (inp : InstallInput)
    (hexe : env.exeExists = false) (h : inp ≠ .many []) :
    (WingetManager.install c env inp).1 = .error (.fileNotFound c) := by
  rcases hp : (normSpecs inp).zip (normIds inp) with _ | ⟨⟨s0, p0⟩, rest⟩
  · exact absurd hp (normZip_ne_nil inp h)
  · simp [WingetManager.install, hp, hexe]

/-! ### Concrete environments for witnesses and counterexamples -/

/-- A system where the executable is missing. -/
def envNoExe : SysEnv :=
  { exeExists := false, preCode := fun _ => 0, preOut := fun _ => "",
    postCode := fun _ => 0, postOut := fun _ => "", installCode := 0,
    wingetInstallCode := fun _ => 0 }

/-- A system where no package is ever present (every presence check fails,
before and after the attempt). -/
def envAbsent : SysEnv :=
  { exeExists := true, preCode := fun _ => 1, preOut := fun _ => "",
    postCode := fun _ => 1, postOut := fun _ => "", installCode := 0,
    wingetInstallCode := fun _ => 0 }

/-- A system where exactly `bash` is present (its presence checks exit 0 and
echo the id); everything else is absent before and after the attempt. -/
def envMixed : SysEnv :=
  { exeExists := true,
    preCode := fun s => if s = "bash" then 0 else 1,
    preOut := fun s => s,
    postCode := fun s => if s = "bash" then 0 else 1,
    postOut := fun s => s,
    installCode := 0, wingetInstallCode := fun _ => 0 }

/-! ### Claims C1-C4, C9: install behaviour -/

/-- Claim C1, counterexample: with a nonexistent executable
(`notarealmanager123`), `install` does not fail with ManagerUnavailable
(`PackageManagerNotFound`) — none of the three `install` methods catch
`FileNotFoundError`, so the builtin exception escapes unclassified. -/
theorem claim_C1_counterexample :
    (HomebrewManager.install "notarealmanager123" envNoExe (.one (.rawStr "bash"))).1
      = .error (.fileNotFound "notarealmanager123")
    ∧ (PacmanManager.install "notarealmanager123" envNoExe (.one (.rawStr "bash"))).1
      = .error (.fileNotFound "notarealmanager123")
    ∧ (WingetManager.install "notarealmanager123" envNoExe (.one (.rawStr "bash"))).1
      = .error (.fileNotFound "notarealmanager123")
    ∧ PmError.fileNotFound "notarealmanager123"
      ≠ PmError.managerNotFound "notarealmanager123" :=
  ⟨rfl, rfl, rfl, by decide⟩

/-- Claim C1, amended: for every adapter with a nonexistent executable,
`versions` fails with ManagerUnavailable (`PackageManagerNotFound`), but
`install` instead propagates the unhandled `FileNotFoundError` of its first
subprocess call for any input containing at least one package, and returns
void success (issuing nothing) on an empty list input. -/
theorem claim_C1_amended {V : Type} (lib : SemverLib V) (c pkg : String)
    (qe : QueryEnv) (se : SysEnv) (inp : InstallInput)
    (hq : qe.exeExists = false) (hs : se.exeExists = false)
    (hi : inp ≠ .many []) :
    HomebrewManager.versions lib c qe pkg = .error (.managerNotFound c)
    ∧ PacmanManager.versions lib c qe pkg = .error (.managerNotFound c)
    ∧ WingetManager.versions lib c qe pkg = .error (.managerNotFound c)
    ∧ (HomebrewManager.install c se inp).1 = .error (.fileNotFound c)
    ∧ (PacmanManager.install c se inp).1 = .error (.fileNotFound c)
    ∧ (WingetManager.install c se inp).1 = .error (.fileNotFound c)
    ∧ HomebrewManager.install c se (.many []) = (.ok, [])
    ∧ PacmanManager.install c se (.many []) = (.ok, [])
    ∧ WingetManager.install c se (.many []) = (.ok, []) := by
  refine ⟨?_, ?_, ?_, hb_install_noexe c se inp hs hi,
    pac_install_noexe c se inp hs hi, wg_install_noexe c se inp hs hi,
    rfl, rfl, rfl⟩
  · simp [HomebrewManager.versions, hq]
  · simp [PacmanManager.versions, PackageManagerHelper.run_versions, hq]
  · simp [WingetManager.versions, hq]

/-- Claim C1 amended, witness at a concrete missing-executable system. -/
theorem claim_C1_amended_witness :
    HomebrewManager.versions toyLib "notarealmanager123"
        { exeExists := false, exitCode := 0, stdout := "", stderr := "" } "bash"
      = .error (.managerNotFound "notarealmanager123")
    ∧ (WingetManager.install "notarealmanager123" envNoExe (.one (.rawStr "bash"))).1
      = .error (.fileNotFound "notarealmanager123") := by
  have h := claim_C1_amended toyLib "notarealmanager123" "bash"
    { exeExists := false, exitCode := 0, stdout := "", stderr := "" }
    envNoExe (.one (.rawStr "bash")) rfl rfl (by decide)
  exact ⟨h.1, h.2.2.2.2.2.1⟩

/-- Claim C2: for every adapter, the failed set is exactly the normalized
input items whose presence check fails both before and after the install
attempt (for Winget the check requires a zero exit AND the id literally in
the check's output); the outcome and trace are independent of the install
command's own exit status(es); and an item whose pre-attempt presence check
succeeds is never marked failed. -/
theorem claim_C2 (c : String) (env : SysEnv) (inp : InstallInput)
    (h : env.exeExists = true) :
    ((HomebrewManager.install c env inp).1.failedSpecs
        = failedSet (hbPresent env.preCode) (hbPresent env.postCode) inp)
    ∧ ((PacmanManager.install c env inp).1.failedSpecs
        = failedSet (hbPresent env.preCode) (hbPresent env.postCode) inp)
    ∧ ((WingetManager.install c env inp).1.failedSpecs
        = failedSet (wgPresent env.preCode env.preOut)
            (wgPresent env.postCode env.postOut) inp)
    ∧ (∀ k g,
        HomebrewManager.install c
            { env with installCode := k, wingetInstallCode := g } inp
          = HomebrewManager.install c env inp
        ∧ PacmanManager.install c
            { env with installCode := k, wingetInstallCode := g } inp
          = PacmanManager.install c env inp
        ∧ WingetManager.install c
            { env with installCode := k, wingetInstallCode := g } inp
          = WingetManager.install c env inp)
    ∧ (∀ s : SpecItem, hbPresent env.preCode s.pkgId = true →
        s ∉ (HomebrewManager.install c env inp).1.failedSpecs
        ∧ s ∉ (PacmanManager.install c env inp).1.failedSpecs)
    ∧ (∀ s : SpecItem, wgPresent env.preCode env.preOut s.pkgId = true →
        s ∉ (WingetManager.install c env inp).1.failedSpecs) := by
  have hhb : (HomebrewManager.install c env inp).1.failedSpecs
      = failedSet (hbPresent env.preCode) (hbPresent env.postCode) inp := by
    rw [hb_install_fst c env inp h, shape_failedSpecs]
  have hpac : (PacmanManager.install c env inp).1.failedSpecs
      = failedSet (hbPresent env.preCode) (hbPresent env.postCode) inp := by
    rw [show PacmanManager.install c env inp
        = PackageManagerHelper.install c env inp from rfl,
      pac_install_fst c env inp h, shape_failedSpecs]
  have hwg : (WingetManager.install c env inp).1.failedSpecs
      = failedSet (wgPresent env.preCode env.preOut)
          (wgPresent env.postCode env.postOut) inp := by
    rw [wg_install_fst c env inp h, shape_failedSpecs]
  refine ⟨hhb, hpac, hwg, fun k g => ⟨rfl, rfl, rfl⟩, ?_, ?_⟩
  · intro s hpre
    constructor
    · rw [hhb]; exact failedSet_not_mem_of_pre _ _ inp s hpre
    · rw [hpac]; exact failedSet_not_mem_of_pre _ _ inp s hpre
  · intro s hpre
    rw [hwg]; exact failedSet_not_mem_of_pre _ _ inp s hpre

/-- Claim C2, witness: on a system where only `bash` is present, the failed
set of the mixed bunch equals the characterized set, and `bash` is not in
it. -/
theorem claim_C2_witness :
    ((HomebrewManager.install "brew" envMixed
        (.many [.spec ⟨"bash", none⟩, .rawStr "nosuchpkg"])).1.failedSpecs
      = failedSet (hbPresent envMixed.preCode) (hbPresent envMixed.postCode)
          (.many [.spec ⟨"bash", none⟩, .rawStr "nosuchpkg"]))
    ∧ SpecItem.spec ⟨"bash", none⟩
        ∉ (HomebrewManager.install "brew" envMixed
            (.many [.spec ⟨"bash", none⟩, .rawStr "nosuchpkg"])).1.failedSpecs := by
  refine ⟨(claim_C2 "brew" envMixed _ rfl).1, ?_⟩
  exact ((claim_C2 "brew" envMixed
    (.many [.spec ⟨"bash", none⟩, .rawStr "nosuchpkg"]) rfl).2.2.2.2.1
    (SpecItem.spec ⟨"bash", none⟩) (by decide)).1

/-- Claim C3: for every adapter, a failing single input raises
`InstallFailed` for that very spec; a failing list input (of any length,
including one element) raises exactly one `InstallBunchFailed`; and
conversely the error kind always reveals the input shape — never mixed. -/
theorem claim_C3 (c : String) (env : SysEnv) (inp : InstallInput)
    (h : env.exeExists = true) :
    (∀ i, inp = .one i →
      (failedSet (hbPresent env.preCode) (hbPresent env.postCode) inp ≠ [] →
        (HomebrewManager.install c env inp).1 = .error (.installFailed i c)
        ∧ (PacmanManager.install c env inp).1 = .error (.installFailed i c))
      ∧ (failedSet (wgPresent env.preCode env.preOut)
            (wgPresent env.postCode env.postOut) inp ≠ [] →
          (WingetManager.install c env inp).1 = .error (.installFailed i c)))
    ∧ (∀ l, inp = .many l →
      (failedSet (hbPresent env.preCode) (hbPresent env.postCode) inp ≠ [] →
        (HomebrewManager.install c env inp).1
          = .error (.bunchFailed
              (failedSet (hbPresent env.preCode) (hbPresent env.postCode) inp) c)
        ∧ (PacmanManager.install c env inp).1
          = .error (.bunchFailed
              (failedSet (hbPresent env.preCode) (hbPresent env.postCode) inp) c))
      ∧ (failedSet (wgPresent env.preCode env.preOut)
            (wgPresent env.postCode env.postOut) inp ≠ [] →
          (WingetManager.install c env inp).1
            = .error (.bunchFailed
                (failedSet (wgPresent env.preCode env.preOut)
                  (wgPresent env.postCode env.postOut) inp) c)))
    ∧ (∀ s m,
        (HomebrewManager.install c env inp).1 = .error (.installFailed s m)
          ∨ (PacmanManager.install c env inp).1 = .error (.installFailed s m)
          ∨ (WingetManager.install c env inp).1 = .error (.installFailed s m) →
        ∃ i, inp = .one i)
    ∧ (∀ fs m,
        (HomebrewManager.install c env inp).1 = .error (.bunchFailed fs m)
          ∨ (PacmanManager.install c env inp).1 = .error (.bunchFailed fs m)
          ∨ (WingetManager.install c env inp).1 = .error (.bunchFailed fs m) →
        ∃ l, inp = .many l) := by
  have epac : PacmanManager.install c env inp
      = PackageManagerHelper.install c env inp := rfl
  refine ⟨?_, ?_, ?_, ?_⟩
  · rintro i rfl
    constructor
    · intro hne
      rcases failedSet_one_cases (hbPresent env.preCode) (hbPresent env.postCode) i
        with hfs | hfs
      · exact absurd hfs hne
      · constructor
        · rw [hb_install_fst c env _ h, hfs]; rfl
        · rw [epac, pac_install_fst c env _ h, hfs]; rfl
    · intro hne
      rcases failedSet_one_cases (wgPresent env.preCode env.preOut)
        (wgPresent env.postCode env.postOut) i with hfs | hfs
      · exact absurd hfs hne
      · rw [wg_install_fst c env _ h, hfs]; rfl
  · rintro l rfl
    constructor
    · intro hne
      constructor
      · rw [hb_install_fst c env _ h, shape_many_ne c l _ hne]
      · rw [epac, pac_install_fst c env _ h, shape_many_ne c l _ hne]
    · intro hne
      rw [wg_install_fst c env _ h, shape_many_ne c l _ hne]
  · intro s m hor
    rcases hor with he | he | he
    · exact shape_eq_installFailed c inp _ s m (by rw [← hb_install_fst c env inp h]; exact he)
    · exact shape_eq_installFailed c inp _ s m
        (by rw [← pac_install_fst c env inp h, ← epac]; exact he)
    · exact shape_eq_installFailed c inp _ s m (by rw [← wg_install_fst c env inp h]; exact he)
  · intro fs m hor
    rcases hor with he | he | he
    · exact shape_eq_bunchFailed c inp _ fs m (by rw [← hb_install_fst c env inp h]; exact he)
    · exact shape_eq_bunchFailed c inp _ fs m
        (by rw [← pac_install_fst c env inp h, ← epac]; exact he)
    · exact shape_eq_bunchFailed c inp _ fs m (by rw [← wg_install_fst c env inp h]; exact he)

/-- Claim C3, witness: a failing single string raises `InstallFailed` with
that string, while a failing ONE-element list raises `InstallBunchFailed`. -/
theorem claim_C3_witness :
    (HomebrewManager.install "brew" envAbsent (.one (.rawStr "nosuchpkg"))).1
      = .error (.installFailed (.rawStr "nosuchpkg") "brew")
    ∧ (HomebrewManager.install "brew" envAbsent (.many [.rawStr "nosuchpkg"])).1
      = .error (.bunchFailed
          (failedSet (hbPresent envAbsent.preCode) (hbPresent envAbsent.postCode)
            (.many [.rawStr "nosuchpkg"])) "brew") := by
  constructor
  · exact (((claim_C3 "brew" envAbsent (.one (.rawStr "nosuchpkg")) rfl).1
      (.rawStr "nosuchpkg") rfl).1 (by decide)).1
  · exact (((claim_C3 "brew" envAbsent (.many [.rawStr "nosuchpkg"]) rfl).2.1
      [.rawStr "nosuchpkg"] rfl).1 (by decide)).1

/-- Claim C4: for every list input, the bunch error carries the complete set
of failed specifications — exactly the coerced input items absent both
before and after the attempt, so no already-installed or newly installed
item appears; on full success `install` returns the void success carrying
nothing. -/
theorem claim_C4 (c : String) (env : SysEnv) (l : List SpecItem)
    (h : env.exeExists = true) :
    (failedSet (hbPresent env.preCode) (hbPresent env.postCode) (.many l)
      = (l.filter fun i =>
          !hbPresent env.preCode i.pkgId
            && !hbPresent env.postCode i.pkgId).map SpecItem.coerceSpec)
    ∧ (failedSet (wgPresent env.preCode env.preOut)
          (wgPresent env.postCode env.postOut) (.many l)
      = (l.filter fun i =>
          !wgPresent env.preCode env.preOut i.pkgId
            && !wgPresent env.postCode env.postOut i.pkgId).map SpecItem.coerceSpec)
    ∧ (failedSet (hbPresent env.preCode) (hbPresent env.postCode) (.many l) = [] →
        (HomebrewManager.install c env (.many l)).1 = .ok
        ∧ (PacmanManager.install c env (.many l)).1 = .ok)
    ∧ (failedSet (wgPresent env.preCode env.preOut)
          (wgPresent env.postCode env.postOut) (.many l) = [] →
        (WingetManager.install c env (.many l)).1 = .ok)
    ∧ (failedSet (hbPresent env.preCode) (hbPresent env.postCode) (.many l) ≠ [] →
        (HomebrewManager.install c env (.many l)).1
          = .error (.bunchFailed
              (failedSet (hbPresent env.preCode) (hbPresent env.postCode) (.many l)) c)
        ∧ (PacmanManager.install c env (.many l)).1
          = .error (.bunchFailed
              (failedSet (hbPresent env.preCode) (hbPresent env.postCode) (.many l)) c))
    ∧ (failedSet (wgPresent env.preCode env.preOut)
          (wgPresent env.postCode env.postOut) (.many l) ≠ [] →
        (WingetManager.install c env (.many l)).1
          = .error (.bunchFailed
              (failedSet (wgPresent env.preCode env.preOut)
                (wgPresent env.postCode env.postOut) (.many l)) c)) := by
  have epac : PacmanManager.install c env (.many l)
      = PackageManagerHelper.install c env (.many l) := rfl
  refine ⟨failedSet_many _ _ l, failedSet_many _ _ l, ?_, ?_, ?_, ?_⟩
  · intro hnil
    constructor
    · rw [hb_install_fst c env _ h, hnil]; rfl
    · rw [epac, pac_install_fst c env _ h, hnil]; rfl
  · intro hnil
    rw [wg_install_fst c env _ h, hnil]; rfl
  · intro hne
    constructor
    · rw [hb_install_fst c env _ h, shape_many_ne c l _ hne]
    · rw [epac, pac_install_fst c env _ h, shape_many_ne c l _ hne]
  · intro hne
    rw [wg_install_fst c env _ h, shape_many_ne c l _ hne]

/-- Claim C4, witness: installing `[PackageSpec("bash"),
"thispackagedoesnotexist12345"]` on a system where only `bash` is present
raises a bunch error whose failed-spec set contains only the coerced
nonexistent id, not `bash`. -/
theorem claim_C4_witness :
    (HomebrewManager.install "brew" envMixed
        (.many [.spec ⟨"bash", none⟩, .rawStr "thispackagedoesnotexist12345"])).1
      = .error (.bunchFailed
          (failedSet (hbPresent envMixed.preCode) (hbPresent envMixed.postCode)
            (.many [.spec ⟨"bash", none⟩, .rawStr "thispackagedoesnotexist12345"])) "brew")
    ∧ failedSet (hbPresent envMixed.preCode) (hbPresent envMixed.postCode)
        (.many [.spec ⟨"bash", none⟩, .rawStr "thispackagedoesnotexist12345"])
      = [.spec ⟨"thispackagedoesnotexist12345", none⟩] := by
  constructor
  · exact ((claim_C4 "brew" envMixed
      [.spec ⟨"bash", none⟩, .rawStr "thispackagedoesnotexist12345"] rfl).2.2.2.2.1
      (by decide)).1
  · decide

/-- Claim C9: for every adapter, installing an empty list is a void success:
no error is raised and no subprocess command at all is issued. -/
theorem claim_C9 (c : String) (env : SysEnv) :
    HomebrewManager.install c env (.many []) = (.ok, [])
    ∧ PacmanManager.install c env (.many []) = (.ok, [])
    ∧ WingetManager.install c env (.many []) = (.ok, []) :=
  ⟨rfl, rfl, rfl⟩

/-! ### Claims C5, C10, C6: versions behaviour -/

/-- Claim C5: on a non-zero exit with the manager's not-found signature,
Homebrew's `versions` returns the empty list as a valid result, while
Pacman's `versions` converts the helper's empty result into a `NotFound`
error raised from the query call — two different outcomes for the same
not-found situation. -/
theorem claim_C5 {V : Type} (lib : SemverLib V) (c pkg : String)
    (e1 e2 : QueryEnv)
    (h1 : e1.exeExists = true) (h2 : e1.exitCode ≠ 0)
    (h3 : pythonIn (hbNotFoundSig pkg) (e1.stderr ++ e1.stdout) = true)
    (h4 : e2.exeExists = true) (h5 : e2.exitCode ≠ 0)
    (h6 : pythonIn "error: package '" (e2.stderr ++ e2.stdout) = true)
    (h7 : pythonIn "was not found" (e2.stderr ++ e2.stdout) = true) :
    HomebrewManager.versions lib c e1 pkg = .ok []
    ∧ PacmanManager.versions lib c e2 pkg = .error (.notFound pkg "pacman")
    ∧ VersionsOutcome.ok ([] : List V) ≠ .error (.notFound pkg "pacman") := by
  refine ⟨?_, ?_, by simp⟩
  · simp [HomebrewManager.versions, h1, h2, h3]
  · simp [PacmanManager.versions, PackageManagerHelper.run_versions, h4, h5, h6, h7]

/-- Homebrew query output for a nonexistent package. -/
def qeHbNF : QueryEnv :=
  { exeExists := true, exitCode := 1, stdout := "",
    stderr := hbNotFoundSig "thispackagedoesnotexist12345" }

/-- Pacman query output for a nonexistent package. -/
def qePacNF : QueryEnv :=
  { exeExists := true, exitCode := 1, stdout := "",
    stderr := "error: package 'thispackagedoesnotexist12345' was not found" }

/-- Claim C5, witness at concrete not-found outputs. -/
theorem claim_C5_witness :
    HomebrewManager.versions toyLib "brew" qeHbNF "thispackagedoesnotexist12345"
      = .ok []
    ∧ PacmanManager.versions toyLib "pacman" qePacNF "thispackagedoesnotexist12345"
      = .error (.notFound "thispackagedoesnotexist12345" "pacman") := by
  have h := claim_C5 toyLib "brew" "thispackagedoesnotexist12345" qeHbNF qePacNF
    rfl (by decide) (by decide) rfl (by decide) (by decide) (by decide)
  exact ⟨h.1, h.2.1⟩

/-- Claim C10: Pacman's `versions` raises `NotFound` whenever the helper's
parsed version list is empty — both on a non-zero exit with the not-found
signature, and on a ZERO exit (package present in the catalog) where every
`Version` line candidate fails strict parsing. -/
theorem claim_C10 {V : Type} (lib : SemverLib V) (c pkg : String)
    (env : QueryEnv) (h1 : env.exeExists = true) :
    (env.exitCode = 0 → pacmanCollect lib (pySplitlines env.stdout) = some [] →
      PacmanManager.versions lib c env pkg = .error (.notFound pkg "pacman"))
    ∧ (env.exitCode ≠ 0 →
        pythonIn "error: package '" (env.stderr ++ env.stdout) = true →
        pythonIn "was not found" (env.stderr ++ env.stdout) = true →
        PacmanManager.versions lib c env pkg = .error (.notFound pkg "pacman")) := by
  constructor
  · intro hz hc
    simp [PacmanManager.versions, PackageManagerHelper.run_versions, h1, hz, hc]
  · intro hnz h6 h7
    simp [PacmanManager.versions, PackageManagerHelper.run_versions, h1, hnz, h6, h7]

/-- Pacman query output where the query SUCCEEDS (exit 0, the package is in
the catalog) but the only `Version` line fails strict parsing. -/
def qePacBadVer : QueryEnv :=
  { exeExists := true, exitCode := 0,
    stdout := "Version : not.a.semver\n", stderr := "" }

/-- Claim C10, witness: `NotFound` is raised although the catalog query
succeeded — so `NotFound` does not imply the package is absent. -/
theorem claim_C10_witness :
    PacmanManager.versions toyLib "pacman" qePacBadVer "somepkg"
      = .error (.notFound "somepkg" "pacman")
    ∧ qePacBadVer.exitCode = 0 :=
  ⟨(claim_C10 toyLib "pacman" "somepkg" qePacBadVer rfl).1 rfl (by decide), rfl⟩

theorem wingetCollect_noheader {V : Type} (lib : SemverLib V) (rest : List String)
    (h : ∀ l ∈ rest, headerLine l = false) :
    wingetCollect lib 2 rest = rest.mapM fun l => lib.coerce (pyStrip l) := by
  induction rest with
  | nil => rfl
  | cons a as ih =>
    have ha : headerLine a = false := h a (List.mem_cons_self a as)
    have has : ∀ l ∈ as, headerLine l = false :=
      fun l hl => h l (List.mem_cons_of_mem a hl)
    rw [wingetCollect, List.mapM_cons]
    simp only [ha, if_false, Bool.false_eq_true, ite_false]
    cases hc : lib.coerce (pyStrip a) with
    | none => simp [hc]
    | some v =>
      simp only [hc, ih has]
      cases hm : as.mapM fun l => lib.coerce (pyStrip l) <;> simp [hm]

/-- Modelled from the spec's words, for comparison with the code: locate the
two-line table header (a `Version` line immediately followed by a
dash-separator line) and return the lenient coercions of ALL following
lines, in order. -/
def wingetSpecParse {V : Type} (lib : SemverLib V) : List String → Option (List V)
  | l1 :: l2 :: rest =>
    if pyStartsWith (pyStrip l1) "Version" && pyStartsWith (pyStrip l2) "-------" then
      rest.mapM fun l => lib.coerce (pyStrip l)
    else wingetSpecParse lib (l2 :: rest)
  | _ => none

/-- Winget query output whose lines after the two-line header contain a
second dash-separator line. -/
def qeWgDouble : QueryEnv :=
  { exeExists := true, exitCode := 0,
    stdout := "Version\n-------\n1.2.3\n-------\n4.5.6\n", stderr := "" }

/-- Claim C6, counterexample: the code does NOT return the coercions of all
post-header lines — a later dash-like line bumps the header counter past 2
and stops the capture, so `4.5.6` is dropped while the spec-words model
keeps every post-header line. -/
theorem claim_C6_counterexample :
    WingetManager.versions toyLib "winget" qeWgDouble "Microsoft.WindowsTerminal"
      = .ok ["1.2.3"]
    ∧ wingetSpecParse toyLib (pySplitlines qeWgDouble.stdout)
      = some ["1.2.3", "-------", "4.5.6"]
    ∧ VersionsOutcome.ok ["1.2.3"]
      ≠ (VersionsOutcome.ok ["1.2.3", "-------", "4.5.6"] : VersionsOutcome String) :=
  ⟨by decide, by decide, by decide⟩

/-- Claim C6, amended: the parser counts header-like lines (stripped line
starting with `Version` or `-------`, in any order), and collects the
lenient coercion of every line seen while the count is exactly 2 — a third
header-like line stops the capture.  In particular, for a zero-exit output
consisting of two header-like lines followed by no further header-like
lines, the result is exactly the lenient coercions of the post-header lines
in output order (a failing coercion raises `ValueError`). -/
theorem claim_C6_amended {V : Type} (lib : SemverLib V) (c pkg : String)
    (env : QueryEnv) (h1 : env.exeExists = true) (h2 : env.exitCode = 0)
    (l1 l2 : String) (rest : List String)
    (hl : pySplitlines env.stdout = l1 :: l2 :: rest)
    (hh1 : headerLine l1 = true) (hh2 : headerLine l2 = true)
    (hr : ∀ l ∈ rest, headerLine l = false) :
    WingetManager.versions lib c env pkg
      = match rest.mapM fun l => lib.coerce (pyStrip l) with
        | some vs => .ok vs
        | none => .error .pyValueError := by
  rw [WingetManager.versions, hl]
  simp only [h1, h2, Bool.not_true, Bool.false_eq_true, if_false, beq_self_eq_true,
    if_true]
  rw [wingetCollect, hh1]
  simp only [if_true]
  rw [wingetCollect, hh2]
  simp only [if_true]
  rw [wingetCollect_noheader lib rest hr]
  cases hm : rest.mapM fun l => lib.coerce (pyStrip l) <;> rfl

/-- Winget query output with a well-formed header and two plain lines. -/
def qeWgGood : QueryEnv :=
  { exeExists := true, exitCode := 0,
    stdout := "Version\n-------\n1.0\nfoo\n", stderr := "" }

/-- Claim C6 amended, witness at a concrete well-formed output. -/
theorem claim_C6_amended_witness :
    WingetManager.versions toyLib "winget" qeWgGood "Microsoft.WindowsTerminal"
      = .ok ["1.0", "foo"] :=
  claim_C6_amended toyLib "winget" "Microsoft.WindowsTerminal" qeWgGood rfl rfl
    "Version" "-------" ["1.0", "foo"] (by decide) (by decide) (by decide) (by decide)

/-! ### Claim C7: EvalStr caching -/

/-- Claim C7, counterexample: serialization is NOT consistent with
at-most-once rendering — after textual access has cached `"A"`, `to_yaml`
re-renders the template against the now-mutated environment and emits
`"B"`. -/
theorem claim_C7_counterexample :
    EvalStr.to_yaml (fun _ => "B")
        (EvalStr.str (fun _ => "A") { template := "t" }).2
      ≠ (EvalStr.str (fun _ => "A") { template := "t" }).1 := by
  decide

/-- Claim C7, amended: textual access renders at most once and caches — a
second access under any (possibly mutated) environment returns the identical
string and leaves the state unchanged — but `to_yaml` re-renders the raw
template against the current environment on every dump, ignoring the
cache. -/
theorem claim_C7_amended (r1 r2 : String → String) (e : EvalStr) :
    (EvalStr.str r2 (EvalStr.str r1 e).2).1 = (EvalStr.str r1 e).1
    ∧ (EvalStr.str r2 (EvalStr.str r1 e).2).2 = (EvalStr.str r1 e).2
    ∧ EvalStr.to_yaml r2 e = r2 e.template := by
  rcases e with ⟨t, _ | v⟩ <;>
    simp [EvalStr.str, EvalStr.to_yaml, EvalStr.try_evaluate]

/-! ### Helper lemmas: document edit -/

theorem lookupKey_map_update (es : List (String × YNode)) (k key : String)
    (g : YNode → YNode) :
    lookupKey (es.map fun kv => if kv.1 = k then (kv.1, g kv.2) else kv) key
      = if key = k then (lookupKey es key).map g else lookupKey es key := by
  induction es with
  | nil => by_cases h : key = k <;> simp [lookupKey, h]
  | cons kv rest ih =>
    rcases eq_or_ne kv.1 k with h1 | h1 <;> rcases eq_or_ne kv.1 key with h2 | h2
    · have hk : key = k := h2 ▸ h1
      simp [lookupKey, h1, h2, hk]
    · have hk : ¬ key = k := fun hh => h2 (h1.trans hh.symm)
      have hk2 : ¬ k = key := fun hh => h2 (h1.trans hh)
      simp [lookupKey, h1, h2, hk, hk2, ih]
    · have hk : ¬ key = k := fun hh => h1 (h2.trans hh)
      simp [lookupKey, h1, h2, hk]
    · simp [lookupKey, h1, h2, ih]

theorem nodeAt_updateAt_self (f : YNode → YNode) (p : List String) :
    ∀ (d n : YNode), nodeAt d p = some n → nodeAt (updateAt f p d) p = some (f n) := by
  induction p with
  | nil =>
    intro d n h
    simp only [nodeAt] at h
    cases h
    rfl
  | cons k ks ih =>
    intro d n h
    cases d with
    | scalar s => simp [nodeAt] at h
    | eval t c => simp [nodeAt] at h
    | map es =>
      simp only [nodeAt] at h
      cases hk : lookupKey es k with
      | none => rw [hk] at h; cases h
      | some v =>
        rw [hk] at h
        simp only [updateAt, nodeAt, lookupKey_map_update es k k (updateAt f ks),
          if_pos rfl, hk, Option.map_some]
        exact ih v n h

theorem nodeAt_updateAt_off (f : YNode → YNode) :
    ∀ (p q : List String) (d : YNode), ¬ p <+: q → ¬ q <+: p →
      nodeAt (updateAt f p d) q = nodeAt d q := by
  intro p
  induction p with
  | nil => intro q d hpq _; exact absurd (List.nil_prefix (l := q)) hpq
  | cons k ks ih =>
    intro q d hpq hqp
    cases q with
    | nil => exact absurd (List.nil_prefix (l := k :: ks)) hqp
    | cons k' ks' =>
      cases d with
      | scalar s => simp [updateAt]
      | eval t c => simp [updateAt]
      | map es =>
        simp only [updateAt, nodeAt, lookupKey_map_update es k k' (updateAt f ks)]
        by_cases hk : k' = k
        · subst hk
          have h1 : ¬ ks <+: ks' :=
            fun hh => hpq (List.cons_prefix_cons.mpr ⟨rfl, hh⟩)
          have h2 : ¬ ks' <+: ks :=
            fun hh => hqp (List.cons_prefix_cons.mpr ⟨rfl, hh⟩)
          simp only [if_pos rfl]
          cases hlk : lookupKey es k' with
          | none => simp
          | some v => simp only [Option.map_some]; exact ih ks' v h1 h2
        · simp [hk]

theorem get_single (d : YNode) (k : String) (v : YNode)
    (h : d.get k = some (some v)) : nodeAt d [k] = some v := by
  cases d with
  | map es =>
    simp only [YNode.get, Option.some.injEq] at h
    simp [nodeAt, h]
  | scalar s => simp [YNode.get] at h
  | eval t c => simp [YNode.get] at h

theorem nodeAt_append (q : List String) :
    ∀ (p : List String) (d : YNode),
      nodeAt d (p ++ q) = (nodeAt d p).bind fun m => nodeAt m q := by
  intro p
  induction p with
  | nil => intro d; simp [nodeAt]
  | cons k ks ih =>
    intro d
    cases d with
    | scalar s => simp [nodeAt]
    | eval t c => simp [nodeAt]
    | map es =>
      simp only [List.cons_append, nodeAt]
      cases hk : lookupKey es k with
      | none => simp
      | some v => simp [ih v]

theorem resolveStep_sound (doc : YNode) (cur : Option (List String × YNode))
    (item : String)
    (hcur : ∀ p n, cur = some (p, n) → nodeAt doc p = some n) :
    ∀ p n, resolveStep doc cur item = some (some (p, n)) → nodeAt doc p = some n := by
  intro p n hstep
  cases cur with
  | none =>
    rcases hg : doc.get item with _ | mv
    · simp [resolveStep, hg] at hstep
    · rcases mv with _ | v
      · simp [resolveStep, hg] at hstep
      · simp only [resolveStep, hg, Option.some.injEq, Prod.mk.injEq] at hstep
        obtain ⟨h1, h2⟩ := hstep
        subst h1; subst h2
        exact get_single doc item v hg
  | some pn =>
    rcases pn with ⟨p0, n0⟩
    rcases hg : YNode.get n0 item with _ | mv
    · simp [resolveStep, hg] at hstep
    · rcases mv with _ | v
      · simp [resolveStep, hg] at hstep
      · simp only [resolveStep, hg, Option.some.injEq, Prod.mk.injEq] at hstep
        obtain ⟨h1, h2⟩ := hstep
        subst h1; subst h2
        rw [nodeAt_append [item] p0 doc, hcur p0 n0 rfl]
        exact get_single n0 item v hg

theorem resolveGo_sound (doc : YNode) :
    ∀ (items : List String) (st : Option (Option (List String × YNode))),
      (∀ p n, st = some (some (p, n)) → nodeAt doc p = some n) →
      ∀ p n, resolveGo doc items st = some (some (p, n)) → nodeAt doc p = some n := by
  intro items
  induction items with
  | nil =>
    intro st hst p n h
    exact hst p n h
  | cons item rest ih =>
    intro st hst p n h
    cases st with
    | none => exact Option.noConfusion h
    | some cur =>
      refine ih (resolveStep doc cur item) ?_ p n h
      intro p' n' hstep
      exact resolveStep_sound doc cur item
        (fun p0 n0 h0 => hst p0 n0 (by rw [h0])) p' n' hstep

/-! ### Claim C8: the document-edit helper -/

/-- Claim C8, counterexample: for the document `{b: !eval t}` and path
`a.b`, plain repeated lookup resolves to nothing (`a` is missing), so the
claim demands the document be left unchanged — but the code's loop restarts
from the root on the missing key, finds `b`, and appends the suffix to its
template. -/
theorem claim_C8_counterexample :
    modifyDoc "a.b" (YNode.map [("b", YNode.eval "t" none)])
      = some (YNode.map [("b", YNode.eval "t modified_value" none)])
    ∧ nodeAt (YNode.map [("b", YNode.eval "t" none)]) (pySplitDot "a.b") = none
    ∧ templateAt (YNode.map [("b", YNode.eval "t modified_value" none)]) ["b"]
      ≠ templateAt (YNode.map [("b", YNode.eval "t" none)]) ["b"] :=
  ⟨rfl, rfl, by decide⟩

/-- Claim C8, amended: `modify` resolves the dot-separated path by repeated
lookup EXCEPT that whenever the intermediate value is missing (Python
`None`), the next segment is looked up from the document root again.  If and
only if the finally resolved value is a TemplatedString, the literal suffix
`" modified_value"` is appended to that node's raw template text; every node
on a path neither extending nor extended by the resolved path is unchanged,
and in all other cases the document is returned unchanged (a lookup on a
non-mapping node raises AttributeError). -/
theorem claim_C8_amended (path : String) (doc : YNode) :
    (∀ p t c, resolveGo doc (pySplitDot path) (some none) = some (some (p, .eval t c)) →
      modifyDoc path doc = some (updateAt appendModified p doc)
      ∧ nodeAt (updateAt appendModified p doc) p
          = some (.eval (t ++ " modified_value") c)
      ∧ ∀ q, ¬ p <+: q → ¬ q <+: p →
          nodeAt (updateAt appendModified p doc) q = nodeAt doc q)
    ∧ (∀ p s, resolveGo doc (pySplitDot path) (some none) = some (some (p, .scalar s)) →
        modifyDoc path doc = some doc)
    ∧ (∀ p es, resolveGo doc (pySplitDot path) (some none) = some (some (p, .map es)) →
        modifyDoc path doc = some doc)
    ∧ (resolveGo doc (pySplitDot path) (some none) = some none →
        modifyDoc path doc = some doc)
    ∧ (resolveGo doc (pySplitDot path) (some none) = none →
        modifyDoc path doc = none) := by
  refine ⟨?_, ?_, ?_, ?_, ?_⟩
  · intro p t c h
    have hnode : nodeAt doc p = some (.eval t c) :=
      resolveGo_sound doc (pySplitDot path) (some none)
        (fun p0 n0 h0 => by simp at h0) p (.eval t c) h
    refine ⟨?_, ?_, ?_⟩
    · simp only [modifyDoc, h]
    · exact nodeAt_updateAt_self appendModified p doc (.eval t c) hnode
    · intro q h1 h2
      exact nodeAt_updateAt_off appendModified p q doc h1 h2
  · intro p s h; simp only [modifyDoc, h]
  · intro p es h; simp only [modifyDoc, h]
  · intro h; simp only [modifyDoc, h]
  · intro h; simp only [modifyDoc, h]

/-- A two-level document with an `!eval` node at `a.b` and an unrelated
sibling `z`. -/
def dW : YNode :=
  .map [("a", .map [("b", .eval "x" none)]), ("z", .scalar "keep")]

/-- Claim C8 amended, witness: editing `a.b` updates exactly that node and
leaves the sibling `z` untouched. -/
theorem claim_C8_amended_witness :
    modifyDoc "a.b" dW = some (updateAt appendModified ["a", "b"] dW)
    ∧ nodeAt (updateAt appendModified ["a", "b"] dW) ["a", "b"]
      = some (.eval ("x" ++ " modified_value") none)
    ∧ nodeAt (updateAt appendModified ["a", "b"] dW) ["z"] = nodeAt dW ["z"] := by
  have h := (claim_C8_amended "a.b" dW).1 ["a", "b"] "x" none rfl
  exact ⟨h.1, h.2.1, h.2.2 ["z"] (by decide) (by decide)⟩
